import Mathlib

/-!
Verification development for the `sanitizer` repository (src/index.js).

The JavaScript code is shallowly embedded: JS values are the inductive
`JSValue` (JS numbers are modelled as exact rationals `ℚ`; this is faithful
to JS doubles only for magnitudes below 2^53 — no rounding — with a decimal
`ToString` form, i.e. below 1e21, so any theorem whose quantified inputs
could otherwise reach that region carries an explicit bound hypothesis),
JS objects are
association lists in insertion order (JS objects have unique keys; the
integer-like-keys-first enumeration order of JS and prototype-chain
properties such as `toString` are not modelled — no claim touches them),
and code that can throw a `TypeError` returns `Except String`.
Each definition mirrors one function of src/index.js and keeps its name.
-/

inductive JSValue where
  | str (s : String)
  | num (q : ℚ)
  | bool (b : Bool)
  | null
  | undefined
  | arr (elems : List JSValue)
  | obj (fields : List (String × JSValue))
deriving Repr

/-- The `SanitizerError` string enum of src/index.js (lines 58-66). -/
inductive SanitizerError where
  | InvalidPayload
  | InvalidSpecRule
  | InvalidStructureValue
  | InvalidValue
  | KeyDoesNotExist
  | ExtraField
deriving Repr, DecidableEq

/-- JS truthiness of a value (`Boolean(v)`); `NaN` never arises in the model. -/
def jsTruthy : JSValue → Bool
  | .str s => s ≠ ""
  | .num q => q ≠ 0
  | .bool b => b
  | .null => false
  | .undefined => false
  | .arr _ => true
  | .obj _ => true

/-- Decimal value of a digit string, accumulator style (the value that
`parseInt`/`parseFloat` read off a digit run). -/
def digitsToNatAux : Nat → List Char → Nat
  | acc, [] => acc
  | acc, c :: t => digitsToNatAux (acc * 10 + (c.toNat - '0'.toNat)) t

/-- Decimal value of a digit list. -/
def digitsToNat (l : List Char) : Nat := digitsToNatAux 0 l

/-- Read a string as a decimal natural when it is a nonempty digit run. -/
def strToNat (s : String) : Option Nat :=
  if s ≠ "" && s.data.all Char.isDigit then some (digitsToNat s.data) else none

/-- The JS `in` operator: `some b` when `k in v` evaluates to `b`, `none` when
it throws a `TypeError` (`in` on a primitive). Array index keys must be in
canonical form, as in JS (`"01" in [5]` is false). Own properties only. -/
def jsHasProp : JSValue → String → Option Bool
  | .obj fs, k => some (fs.any (fun p => p.1 == k))
  | .arr xs, k =>
      some (k == "length" ||
        (match strToNat k with
         | some i => toString i == k && i < xs.length
         | none => false))
  | _, _ => none

/-- JS property read `v[k]` for the cases where `k in v` did not throw;
a missing property reads as `undefined`. -/
def jsGetProp : JSValue → String → JSValue
  | .obj fs, k => (((fs.find? (fun p => p.1 == k)).map Prod.snd).getD .undefined)
  | .arr xs, k =>
      if k == "length" then .num xs.length
      else
        (match strToNat k with
         | some i => xs.getD i .undefined
         | none => .undefined)
  | _, _ => .undefined

/-- `Object.assign({}, v)` / `{...v}`: the own-enumerable-property shallow copy
that `isKeyExist` and `getValueFromKey` start their walk from. Primitive and
nullish sources yield an empty object; a string source yields its index
properties, an array its element index properties (`length` is not enumerable). -/
def assignCopy : JSValue → JSValue
  | .obj fs => .obj fs
  | .arr xs => .obj (xs.enum.map (fun p => (toString p.1, p.2)))
  | .str s => .obj (s.data.enum.map (fun p => (toString p.1, .str (Char.toString p.2))))
  | _ => .obj []

/-- JS property write `o[k] = v` on an object: overwrite in place, or append a
new key at the end of the insertion order. -/
def objSet {α : Type} (fs : List (String × α)) (k : String) (v : α) : List (String × α) :=
  if fs.any (fun p => p.1 == k) then fs.map (fun p => if p.1 == k then (k, v) else p)
  else fs ++ [(k, v)]

/-- Read of key `k` from a flat object modelled as an association list;
missing keys read as the supplied default. -/
def objGetD {α : Type} (fs : List (String × α)) (k : String) (d : α) : α :=
  (((fs.find? (fun p => p.1 == k)).map Prod.snd).getD d)

mutual
/-- JS `ToString` coercion, as applied by `reg.test(value)` and by property
names. Non-integer rationals print as `num/den`; like JS's decimal form
(`"123.45"`), that representation contains a character no phone-grammar
class accepts, so every phone-regex test agrees with JS on the outcome. -/
def jsToString : JSValue → String
  | .str s => s
  | .num q => if q.den == 1 then toString q.num else toString q
  | .bool b => if b then "true" else "false"
  | .null => "null"
  | .undefined => "undefined"
  | .arr xs => String.intercalate "," (jsToStringList xs)
  | .obj _ => "[object Object]"

/-- `Array.prototype.join(",")` element coercion: `null`/`undefined` render
as the empty string inside an array. -/
def jsToStringList : List JSValue → List String
  | [] => []
  | x :: t =>
      (match x with
       | .null => ""
       | .undefined => ""
       | v => jsToString v) :: jsToStringList t
end

/-- `isString` (src/index.js line 3). -/
def isString : JSValue → Bool
  | .str _ => true
  | _ => false

/-- `isInteger` (line 7): `Number(value) === value && value % 1 === 0`.
The strict-equality conjunct holds exactly for numbers (`NaN` is outside the
model), and a rational is integral exactly when its denominator is 1. -/
def isInteger : JSValue → Bool
  | .num q => q.den == 1
  | _ => false

/-- `isFloat` (line 11): a number with a nonzero fractional part. -/
def isFloat : JSValue → Bool
  | .num q => q.den != 1
  | _ => false

/-- `isArray` (line 21). -/
def isArray : JSValue → Bool
  | .arr _ => true
  | _ => false

/-- The character class `[\d\- ]` of the phone regex. -/
def phoneRestChar (c : Char) : Bool := c.isDigit || c == '-' || c == ' '

/-- The tail `[\d\- ]{7,10}$` of the phone regex. -/
def phoneRest (l : List Char) : Bool :=
  7 ≤ l.length && l.length ≤ 10 && l.all phoneRestChar

/-- After `\)?`: the optional separator `[\- ]?` followed by the tail; both the
greedy and the skipping alternative are tried, as regex backtracking would. -/
def phoneAfterParen (l : List Char) : Bool :=
  phoneRest l ||
    (match l with
     | c :: t => (c == '-' || c == ' ') && phoneRest t
     | [] => false)

/-- `\d{3}\)?` then the rest: three digits, then a `)` must be consumed when
present (no later class accepts `)`), then `phoneAfterParen`. -/
def phoneDigits3 : List Char → Bool
  | d1 :: d2 :: d3 :: rest =>
      d1.isDigit && d2.isDigit && d3.isDigit &&
        (match rest with
         | ')' :: rest2 => phoneAfterParen rest2
         | _ => phoneAfterParen rest)
  | _ => false

/-- The mandatory group `(\(?\d{3}\)?[\- ]?)`: an optional `(` must be consumed
when present (the three digits cannot start at `(`). -/
def phoneGroup2 : List Char → Bool
  | '(' :: rest => phoneDigits3 rest
  | l => phoneDigits3 l

/-- After the country code: the optional separator `[\- ]?` (a separator must
be consumed when present — `phoneGroup2` cannot start at `-` or a space). -/
def phoneAfterCountry : List Char → Bool
  | c :: rest => if c == '-' || c == ' ' then phoneGroup2 rest else phoneGroup2 (c :: rest)
  | [] => false

/-- The anchored mobile-phone regex
`^((8|7|\+7)[\- ]?)(\(?\d{3}\)?[\- ]?)[\d\- ]{7,10}$` of src/index.js line 17,
decomposed over the character list. -/
def phoneMatch (s : String) : Bool :=
  match s.data with
  | '+' :: '7' :: rest => phoneAfterCountry rest
  | '8' :: rest => phoneAfterCountry rest
  | '7' :: rest => phoneAfterCountry rest
  | _ => false

/-- `isPhone` (line 15): `reg.test(value)` coerces its argument to a string. -/
def isPhone (v : JSValue) : Bool := phoneMatch (jsToString v)

/-- `String.prototype.split('.')` over the character list: `"a.b"` gives
`["a", "b"]`, `""` gives `[""]`, adjacent dots give empty segments — exactly
JS's single-character split. -/
def splitDotChars : List Char → List (List Char)
  | [] => [[]]
  | c :: t =>
      if c = '.' then [] :: splitDotChars t
      else
        match splitDotChars t with
        | h :: r => (c :: h) :: r
        | [] => [[c]]

/-- `key.split('.')` as used by the key-path utilities. -/
def splitDot (s : String) : List String := (splitDotChars s.data).map (fun l => ⟨l⟩)

/-- The regex `^\d+$` used by `IntegerRule`. -/
def digitString (s : String) : Bool := s ≠ "" && s.data.all Char.isDigit

/-- The regex `^\d+\.\d+$` used by `FloatRule`: exactly one dot with nonempty
digit runs on both sides. -/
def floatString (s : String) : Bool :=
  match splitDot s with
  | [a, b] => digitString a && digitString b
  | _ => false

/-- `parseInt(s, 10)` on a string matching `^\d+$` (the only strings the code
parses): the exact decimal value. Faithful to JS only while that value is
below 2^53 — above it `parseInt` rounds to the nearest double — so the
idempotence theorem over digit strings (C5) assumes that bound. -/
def parseIntDec (s : String) : ℚ := mkRat ((strToNat s).getD 0 : ℤ) 1

/-- `parseFloat(s)` on a string matching `^\d+\.\d+$`: the value of the
decimal numeral `a.b`, i.e. the rational `(a·10^|b| + b) / 10^|b|`. -/
def parseFloatDec (s : String) : ℚ :=
  match splitDot s with
  | [a, b] => mkRat (((strToNat a).getD 0) * 10 ^ b.length + ((strToNat b).getD 0) : ℤ) (10 ^ b.length)
  | _ => 0

/-- `String.prototype.replace(/^8/, '7')`. -/
def replaceLeading8 (s : String) : String :=
  match s.data with
  | '8' :: t => ⟨'7' :: t⟩
  | _ => s

/-- `String.prototype.replace(/\D+/g, '')`: keep only digits. -/
def stripNonDigits (s : String) : String := ⟨s.data.filter Char.isDigit⟩

/-- `IntegerRule.sanitize` (lines 81-89): valid iff the value is an integral
number or an all-digit string; otherwise the logger is called with
`InvalidValue` and the value replaced by `0`; the result is `parseInt` of
the (possibly replaced) value. The second component records the logger calls.
The integral-number branch models `parseInt(value, 10)` as the identity,
which is faithful only while `String(value)` is the exact decimal numeral —
magnitudes below 2^53 (no double rounding) and below 1e21 (where `String`
turns exponential and, e.g., `parseInt(1e21, 10)` is `1`); the idempotence
theorem over digit strings (C5) therefore assumes the 2^53 bound. -/
def IntegerRule.sanitize (v : JSValue) : JSValue × List SanitizerError :=
  if isInteger v then (v, [])
  else
    match v with
    | .str s => if digitString s then (.num (parseIntDec s), []) else (.num 0, [.InvalidValue])
    | _ => (.num 0, [.InvalidValue])

/-- `FloatRule.sanitize` (lines 91-99): valid iff the value is a non-integral
number or a string matching `^\d+\.\d+$`; otherwise `InvalidValue` is logged
and `0.0` returned. -/
def FloatRule.sanitize (v : JSValue) : JSValue × List SanitizerError :=
  if isFloat v then (v, [])
  else
    match v with
    | .str s => if floatString s then (.num (parseFloatDec s), []) else (.num 0, [.InvalidValue])
    | _ => (.num 0, [.InvalidValue])

/-- `StringRule.sanitize` (lines 101-109). -/
def StringRule.sanitize (v : JSValue) : JSValue × List SanitizerError :=
  match v with
  | .str s => (.str s, [])
  | _ => (.str "", [.InvalidValue])

/-- `PhoneRule.sanitize` (lines 111-119). When `isPhone(value)` holds for a
non-string value, the unreplaced value is kept and `value.replace` throws a
`TypeError` (only strings have `replace`); that is the `.error` case. -/
def PhoneRule.sanitize (v : JSValue) : Except String (JSValue × List SanitizerError) :=
  if isPhone v then
    match v with
    | .str s => .ok (.str (stripNonDigits (replaceLeading8 s)), [])
    | _ => .error "TypeError: value.replace is not a function"
  else .ok (.str "", [.InvalidValue])

/-- The scalar rules registered in `StandardSanitizer` and accepted as inner
rules of `TypedArrayRule`. (The source's `IStructuralRule` constructor would
also accept another structural rule as inner; the standard registry never
nests, and the model keeps inner rules scalar.) -/
inductive ScalarRule where
  | integer
  | float
  | strRule
  | phone
deriving Repr, DecidableEq

/-- A registry entry: a scalar rule or a `TypedArrayRule` wrapping one. -/
inductive Rule where
  | scalar (s : ScalarRule)
  | typedArray (inner : ScalarRule)
deriving Repr, DecidableEq

/-- Dispatch of `rule.sanitize(value, logger)` for a scalar rule; the list is
the sequence of `logger` calls. -/
def scalarSanitize : ScalarRule → JSValue → Except String (JSValue × List SanitizerError)
  | .integer, v => .ok (IntegerRule.sanitize v)
  | .float, v => .ok (FloatRule.sanitize v)
  | .strRule, v => .ok (StringRule.sanitize v)
  | .phone, v => PhoneRule.sanitize v

/-- The element loop of `TypedArrayRule.sanitize` (lines 141-143):
`array.map` with the nested callback `error => { if (error) invalidIndexes.push(index) }`.
Error kinds are nonempty strings, hence truthy, so the index is pushed once
per logger call of the inner rule. Returns the mapped array and the
`invalidIndexes` list. -/
def sanitizeElems (r : ScalarRule) : List JSValue → Nat → Except String (List JSValue × List Nat)
  | [], _ => .ok ([], [])
  | x :: t, i =>
      match scalarSanitize r x with
      | .error e => .error e
      | .ok (v, calls) =>
          match sanitizeElems r t (i + 1) with
          | .error e => .error e
          | .ok (vs, inv) => .ok (v :: vs, List.replicate calls.length i ++ inv)

/-- `TypedArrayRule.sanitize` (lines 138-154). The second component is the
sequence of calls to the structural rule's own logger, each carrying the
error kind and the index list argument. -/
def TypedArrayRule.sanitize (r : ScalarRule) (v : JSValue) :
    Except String (JSValue × List (SanitizerError × List Nat)) :=
  match v with
  | .arr items =>
      match sanitizeElems r items 0 with
      | .error e => .error e
      | .ok (vs, inv) =>
          if inv.isEmpty then .ok (.arr vs, [])
          else .ok (.arr [], [(.InvalidStructureValue, inv)])
  | _ => .ok (.arr [], [(.InvalidValue, [])])

/-- `sanitize` of an arbitrary registry entry. Scalar loggers take only the
error kind; their calls are padded with an empty index list so both rule
shapes share one type (the `Sanitizer`'s callback reads only the kind). -/
def ruleSanitize : Rule → JSValue → Except String (JSValue × List (SanitizerError × List Nat))
  | .scalar s, v =>
      match scalarSanitize s v with
      | .error e => .error e
      | .ok (w, es) => .ok (w, es.map (fun e => (e, [])))
  | .typedArray r, v => TypedArrayRule.sanitize r v

/-- The final `!== false` comparison of `isKeyExist`: every accumulator value
other than the literal `false` counts as existing. -/
def notFalseB : JSValue → Bool
  | .bool false => false
  | _ => true

/-- The reducer step of `isKeyExist` (lines 29-33):
`(a, c) => c in a ? a[c] || 1 : false`. A throwing `in` surfaces as `.error`. -/
def keyWalk : JSValue → List String → Except String JSValue
  | a, [] => .ok a
  | a, c :: rest =>
      match jsHasProp a c with
      | none => .error "TypeError: cannot use in operator"
      | some false => keyWalk (.bool false) rest
      | some true => keyWalk (if jsTruthy (jsGetProp a c) then jsGetProp a c else .num 1) rest

/-- `isKeyExist` (lines 29-33): reduce over the dot-split key starting from a
shallow copy, then compare the accumulator against `false` with `!==`. -/
def isKeyExist (object : JSValue) (key : String) : Except String Bool :=
  (keyWalk (assignCopy object) (splitDot key)).map notFalseB

/-- The reducer of `getValueFromKey` (lines 39-41):
`(a, c) => c in a ? a[c] : def`. -/
def getWalk (dflt : JSValue) : JSValue → List String → Except String JSValue
  | a, [] => .ok a
  | a, c :: rest =>
      match jsHasProp a c with
      | none => .error "TypeError: cannot use in operator"
      | some false => getWalk dflt dflt rest
      | some true => getWalk dflt (jsGetProp a c) rest

/-- `getValueFromKey` (lines 39-41) with its default of `null`. -/
def getValueFromKey (object : JSValue) (key : String) (dflt : JSValue) :
    Except String JSValue :=
  getWalk dflt (assignCopy object) (splitDot key)

/-- The reducer of `setValueFromKey` (lines 43-45): walk the split key; on a
non-final segment reuse `a[c]` when present (whatever it is) or insert a fresh
`{}`; on the final segment assign. Stepping into a primitive throws (`in` and
strict-mode assignment on primitives). A non-final segment resolving to an
array is not modelled (no dot-free spec produces one); it is mapped to an
error. -/
def setWalk (value : JSValue) : JSValue → List String → Except String JSValue
  | .obj fs, [c] => .ok (.obj (objSet fs c value))
  | .obj fs, c :: rest =>
      (match setWalk value (objGetD fs c (.obj [])) rest with
       | .error e => .error e
       | .ok child => .ok (.obj (objSet fs c child)))
  | _, _ => .error "TypeError: cannot create property on primitive"

/-- `setValueFromKey` (lines 43-45), functionally: returns the updated object. -/
def setValueFromKey (object : JSValue) (key : String) (value : JSValue) :
    Except String JSValue :=
  setWalk value object (splitDot key)

/-- `[pre, key].filter(v => v).join('.')` of `toFlatObject` (line 203):
empty segments are dropped before joining. -/
def joinKeys (pre key : String) : String :=
  String.intercalate "." (([pre, key]).filter (fun v => v ≠ ""))

mutual
/-- The inner `flat(res, key, val, pre)` of `toFlatObject` (lines 202-208).
`typeof val === 'object' && !isArray(val)` holds for plain objects and for
`null`; descending into `null` means `Object.keys(null)`, which throws. -/
def flatVal (res : List (String × JSValue)) (key : String) (val : JSValue) (pre : String) :
    Except String (List (String × JSValue)) :=
  match val with
  | .obj fs => flatFields res fs (joinKeys pre key)
  | .null => .error "TypeError: Object.keys of null"
  | v => .ok (objSet res (joinKeys pre key) v)

/-- The `Object.keys(val).reduce` fold over an object's fields. -/
def flatFields (res : List (String × JSValue)) (fs : List (String × JSValue)) (pre : String) :
    Except String (List (String × JSValue)) :=
  match fs with
  | [] => .ok res
  | (k, v) :: t =>
      match flatVal res k v pre with
      | .error e => .error e
      | .ok res2 => flatFields res2 t pre
end

/-- `Sanitizer.toFlatObject` (lines 201-212): fold `flat` over the top-level
keys. `Object.keys` of `null`/`undefined` throws; of other primitives it is
empty (for a string, its index properties). -/
def toFlatObject (object : JSValue) : Except String (List (String × JSValue)) :=
  match object with
  | .obj fs => flatFields [] fs ""
  | .arr xs => flatFields [] (xs.enum.map (fun p => (toString p.1, p.2))) ""
  | .str s => flatFields [] (s.data.enum.map (fun p => (toString p.1, .str (Char.toString p.2)))) ""
  | .null => .error "TypeError: Object.keys of null"
  | .undefined => .error "TypeError: Object.keys of undefined"
  | _ => .ok []

/-- The `for (const specKey in flatSpec)` loop of `sanitizeBySpec`
(lines 184-197), one key at a time, threading the output object under
construction and the instance's error accumulator. The per-key callback is
`error => this.errors[specKey] = error`, applied once per logger call. -/
def specLoop (rules : List (String × Rule)) (spec payload : JSValue)
    (flatPayload : List (String × JSValue)) :
    List String → JSValue → List (String × SanitizerError) →
    Except String (JSValue × List (String × SanitizerError))
  | [], out, errs => .ok (out, errs)
  | k :: rest, out, errs =>
      match isKeyExist payload k with
      | .error e => .error e
      | .ok false =>
          specLoop rules spec payload flatPayload rest out (objSet errs k .KeyDoesNotExist)
      | .ok true =>
          match getValueFromKey spec k .null with
          | .error e => .error e
          | .ok ruleVal =>
              match (rules.find? (fun p => p.1 == jsToString ruleVal)).map Prod.snd with
              | none =>
                  specLoop rules spec payload flatPayload rest out (objSet errs k .InvalidSpecRule)
              | some r =>
                  match ruleSanitize r (objGetD flatPayload k .undefined) with
                  | .error e => .error e
                  | .ok (sv, calls) =>
                      match setValueFromKey out k sv with
                      | .error e => .error e
                      | .ok out2 =>
                          specLoop rules spec payload flatPayload rest out2
                            (calls.foldl (fun es c => objSet es k c.1) errs)

/-- `Sanitizer.sanitizeBySpec` (lines 172-199). `errors0` is the instance's
error accumulator `this.errors` on entry (set to `{}` only by the constructor);
the result carries the accumulator on exit. The `ExtraField` reconciliation
pass runs only when the two flattened key counts differ (line 178). -/
def sanitizeBySpec (rules : List (String × Rule)) (spec payload : JSValue)
    (errors0 : List (String × SanitizerError)) :
    Except String (JSValue × List (String × SanitizerError)) :=
  match toFlatObject spec with
  | .error e => .error e
  | .ok flatSpec =>
      match toFlatObject payload with
      | .error e => .error e
      | .ok flatPayload =>
          let specKeys := flatSpec.map Prod.fst
          let payloadKeys := flatPayload.map Prod.fst
          let errs :=
            if specKeys.length ≠ payloadKeys.length then
              payloadKeys.foldl
                (fun es k => if specKeys.contains k then es else objSet es k .ExtraField)
                errors0
            else errors0
          specLoop rules spec payload flatPayload specKeys (.obj []) errs

/-- The registry of `StandardSanitizer` (lines 215-224). -/
def standardRules : List (String × Rule) :=
  [("int", .scalar .integer), ("float", .scalar .float),
   ("phone", .scalar .phone), ("string", .scalar .strRule),
   ("int[]", .typedArray .integer), ("float[]", .typedArray .float),
   ("phone[]", .typedArray .phone), ("string[]", .typedArray .strRule)]

/-- Whether an `Except` computation returned normally. -/
def isOkE {ε α : Type} : Except ε α → Bool
  | .ok _ => true
  | .error _ => false

/-- The value an inner rule's `sanitize` maps an element to (meaningful when
it returns normally). -/
def elemValue (r : ScalarRule) (v : JSValue) : JSValue :=
  match scalarSanitize r v with
  | .ok p => p.1
  | .error _ => v

/-- How many times the inner rule's `sanitize` invokes its logger on a value
(when it returns normally). -/
def elemErrs (r : ScalarRule) (v : JSValue) : Nat :=
  match scalarSanitize r v with
  | .ok p => p.2.length
  | .error _ => 0

/-- The indexes, offset by a starting index, of the elements on which the
inner rule logs at least one error: the reference form of the
`invalidIndexes` list that `TypedArrayRule.sanitize` accumulates. -/
def invalidIdxs (r : ScalarRule) : List JSValue → Nat → List Nat
  | [], _ => []
  | x :: t, i => (if elemErrs r x = 0 then [] else [i]) ++ invalidIdxs r t (i + 1)

/-- Stated from the claim's words (C9), for comparison with `isKeyExist`:
the dotted walk resolves when each segment is a present property (JS `in`
presence over own properties) of the value reached so far. -/
def resolvesSeq : JSValue → List String → Bool
  | _, [] => true
  | v, c :: rest => (jsHasProp v c == some true) && resolvesSeq (jsGetProp v c) rest

theorem scalarSanitize_calls (r : ScalarRule) (v : JSValue) (w : JSValue)
    (es : List SanitizerError) (h : scalarSanitize r v = .ok (w, es)) :
    es = [] ∨ es = [.InvalidValue] := by
  cases r <;>
    simp only [scalarSanitize, IntegerRule.sanitize, FloatRule.sanitize,
      StringRule.sanitize, PhoneRule.sanitize] at h <;>
    cases v <;> simp_all <;> split at h <;> simp_all <;> split at h <;> simp_all

theorem elemErrs_eq (r : ScalarRule) (v w : JSValue) (es : List SanitizerError)
    (h : scalarSanitize r v = .ok (w, es)) : elemErrs r v = es.length := by
  simp [elemErrs, h]

theorem elemValue_eq (r : ScalarRule) (v w : JSValue) (es : List SanitizerError)
    (h : scalarSanitize r v = .ok (w, es)) : elemValue r v = w := by
  simp [elemValue, h]

theorem sanitizeElems_eq (r : ScalarRule) :
    ∀ (items : List JSValue) (i : Nat),
      (∀ x ∈ items, isOkE (scalarSanitize r x) = true) →
      sanitizeElems r items i = .ok (items.map (elemValue r), invalidIdxs r items i) := by
  intro items
  induction items with
  | nil => intro i _; rfl
  | cons x t ih =>
    intro i hall
    have hx : isOkE (scalarSanitize r x) = true := hall x (by simp)
    obtain ⟨⟨w, es⟩, hok⟩ : ∃ p, scalarSanitize r x = .ok p := by
      cases hsc : scalarSanitize r x with
      | ok p => exact ⟨p, rfl⟩
      | error e => rw [hsc] at hx; simp [isOkE] at hx
    have ht := ih (i + 1) (fun y hy => hall y (by simp [hy]))
    have hrep : List.replicate es.length i = (if elemErrs r x = 0 then [] else [i]) := by
      rcases scalarSanitize_calls r x w es hok with h0 | h1
      · subst h0; simp [elemErrs_eq r x w [] hok]
      · subst h1; simp [elemErrs_eq r x w [.InvalidValue] hok]
    simp [sanitizeElems, hok, ht, invalidIdxs, elemValue_eq r x w es hok, hrep]

theorem sanitizeElems_elem_ok (r : ScalarRule) :
    ∀ (items : List JSValue) (i : Nat) (p : List JSValue × List Nat),
      sanitizeElems r items i = .ok p → ∀ x ∈ items, isOkE (scalarSanitize r x) = true := by
  intro items
  induction items with
  | nil => intro i p _ x hx; simp at hx
  | cons y t ih =>
    intro i p h x hx
    rcases hsc : scalarSanitize r y with e | q
    · rw [sanitizeElems, hsc] at h; exact absurd h (by simp)
    · rcases hst : sanitizeElems r t (i + 1) with e2 | p2
      · rw [sanitizeElems, hsc, hst] at h
        rcases q with ⟨w, es⟩
        exact absurd h (by simp)
      · rcases List.mem_cons.mp hx with hx | hx
        · subst hx; simp [hsc, isOkE]
        · exact ih (i + 1) p2 hst x hx

theorem invalidIdxs_ge (r : ScalarRule) :
    ∀ (items : List JSValue) (i j : Nat), j ∈ invalidIdxs r items i → i ≤ j := by
  intro items
  induction items with
  | nil => intro i j h; simp [invalidIdxs] at h
  | cons x t ih =>
    intro i j h
    rw [invalidIdxs] at h
    rcases List.mem_append.mp h with h1 | h2
    · split at h1 <;> simp_all
    · exact Nat.le_of_succ_le (ih (i + 1) j h2)

theorem invalidIdxs_sorted (r : ScalarRule) :
    ∀ (items : List JSValue) (i : Nat), List.Sorted (· < ·) (invalidIdxs r items i) := by
  intro items
  induction items with
  | nil => intro i; simp [invalidIdxs]
  | cons x t ih =>
    intro i
    rw [invalidIdxs]
    split
    · simpa using ih (i + 1)
    · simp only [List.singleton_append, List.sorted_cons]
      exact ⟨fun b hb => Nat.lt_of_succ_le (invalidIdxs_ge r t (i + 1) b hb), ih (i + 1)⟩

theorem invalidIdxs_mem (r : ScalarRule) :
    ∀ (items : List JSValue) (i j : Nat),
      j ∈ invalidIdxs r items i ↔
        ∃ d, d < items.length ∧ j = i + d ∧ elemErrs r (items.getD d .null) ≠ 0 := by
  intro items
  induction items with
  | nil => intro i j; simp [invalidIdxs]
  | cons x t ih =>
    intro i j
    rw [invalidIdxs]
    constructor
    · intro h
      rcases List.mem_append.mp h with h1 | h2
      · refine ⟨0, by simp, ?_, ?_⟩ <;> split at h1 <;> simp_all
      · obtain ⟨d, hd, hj, he⟩ := (ih (i + 1) j).mp h2
        exact ⟨d + 1, by simpa using hd, by omega, by simpa using he⟩
    · rintro ⟨d, hd, hj, he⟩
      rcases d with _ | d
      · apply List.mem_append.mpr; left
        simp only [List.getD_cons_zero] at he
        simp [he, hj]
      · apply List.mem_append.mpr; right
        exact (ih (i + 1) j).mpr ⟨d, by simpa using hd, by omega, by simpa using he⟩

theorem invalidIdxs_nil_iff (r : ScalarRule) :
    ∀ (items : List JSValue) (i : Nat),
      invalidIdxs r items i = [] ↔ ∀ x ∈ items, elemErrs r x = 0 := by
  intro items
  induction items with
  | nil => intro i; simp [invalidIdxs]
  | cons x t ih =>
    intro i
    rw [invalidIdxs]
    constructor
    · intro h
      rcases List.append_eq_nil.mp h with ⟨h1, h2⟩
      intro y hy
      rcases List.mem_cons.mp hy with hy | hy
      · subst hy; by_contra hne; simp [hne] at h1
      · exact (ih (i + 1)).mp h2 y hy
    · intro h
      have hx := h x (by simp)
      simp [hx, (ih (i + 1)).mpr (fun y hy => h y (by simp [hy]))]

/-- C6 (amended): for every inner scalar rule and array whose elements the
inner rule processes without throwing, `TypedArrayRule.sanitize` is
all-or-nothing: with no erroring element it returns the fully mapped array
and logs nothing; with at least one erroring element it logs
`InvalidStructureValue` carrying exactly the erroring indexes and returns the
empty array. (As stated over all inner rules the claim fails: a phone-like
non-string element makes the inner `PhoneRule.sanitize` throw, and the
exception propagates — see the counterexample.) -/
theorem C6_typedArray_all_or_nothing (r : ScalarRule) (items : List JSValue)
    (hok : ∀ x ∈ items, isOkE (scalarSanitize r x) = true) :
    TypedArrayRule.sanitize r (.arr items) =
      (if invalidIdxs r items 0 = [] then .ok (.arr (items.map (elemValue r)), [])
       else .ok (.arr [], [(.InvalidStructureValue, invalidIdxs r items 0)])) ∧
    (invalidIdxs r items 0 = [] ↔ ∀ x ∈ items, elemErrs r x = 0) := by
  constructor
  · simp only [TypedArrayRule.sanitize, sanitizeElems_eq r items 0 hok, List.isEmpty_iff]
  · exact invalidIdxs_nil_iff r items 0

theorem C6_witness :
    TypedArrayRule.sanitize .strRule (.arr [.str "foo", .str "bar", .null]) =
      .ok (.arr [], [(.InvalidStructureValue, [2])]) := by
  have h := (C6_typedArray_all_or_nothing .strRule [.str "foo", .str "bar", .null]
    (by decide)).1
  rw [h]; rfl

/-- C10: whenever `TypedArrayRule.sanitize` reports `InvalidStructureValue`
with an index list, that list is strictly increasing, duplicate-free, and
contains exactly the indexes whose element made the inner rule invoke its
error callback. -/
theorem C10_invalid_indexes_exact (r : ScalarRule) (items : List JSValue)
    (out : JSValue) (idxs : List Nat)
    (h : TypedArrayRule.sanitize r (.arr items) =
      .ok (out, [(.InvalidStructureValue, idxs)])) :
    List.Sorted (· < ·) idxs ∧ idxs.Nodup ∧
      ∀ j, j ∈ idxs ↔ (j < items.length ∧ elemErrs r (items.getD j .null) ≠ 0) := by
  rcases hse : sanitizeElems r items 0 with e | ⟨vs, inv⟩
  · rw [TypedArrayRule.sanitize, hse] at h; exact absurd h (by simp)
  · have hall := sanitizeElems_elem_ok r items 0 (vs, inv) hse
    have heq := sanitizeElems_eq r items 0 hall
    rw [hse] at heq
    obtain ⟨-, hinv⟩ : vs = items.map (elemValue r) ∧ inv = invalidIdxs r items 0 := by
      simpa using heq
    subst hinv
    simp only [TypedArrayRule.sanitize, hse, List.isEmpty_iff] at h
    split at h
    · exact absurd h (by simp)
    · obtain ⟨-, hi⟩ : JSValue.arr [] = out ∧ invalidIdxs r items 0 = idxs := by
        simpa using h
      subst hi
      refine ⟨invalidIdxs_sorted r items 0, (invalidIdxs_sorted r items 0).nodup, fun j => ?_⟩
      rw [invalidIdxs_mem r items 0 j]
      constructor
      · rintro ⟨d, hd, hj, he⟩
        simp only [Nat.zero_add] at hj
        exact ⟨hj ▸ hd, hj ▸ he⟩
      · rintro ⟨hj, he⟩
        exact ⟨j, hj, by omega, he⟩

theorem C10_witness :
    List.Sorted (· < ·) [1, 2] ∧ List.Nodup [1, 2] := by
  have h := C10_invalid_indexes_exact .strRule [.str "foo", .null, .num 3]
    (.arr []) [1, 2] rfl
  exact ⟨h.1, h.2.1⟩

theorem jsHasProp_none_of_falsy (w : JSValue) (c : String) (h : jsTruthy w = false) :
    jsHasProp w c = none := by
  cases w <;> simp_all [jsTruthy, jsHasProp]

theorem notFalseB_of_truthy (w : JSValue) (h : jsTruthy w = true) :
    notFalseB w = true := by
  cases w <;> simp_all [jsTruthy, notFalseB]

theorem keyWalk_cons (v : JSValue) (c : String) (rest : List String) :
    keyWalk v (c :: rest) =
      match jsHasProp v c with
      | none => .error "TypeError: cannot use in operator"
      | some false => keyWalk (.bool false) rest
      | some true =>
          keyWalk (if jsTruthy (jsGetProp v c) then jsGetProp v c else .num 1) rest := rfl

theorem resolvesSeq_cons (v : JSValue) (c : String) (rest : List String) :
    resolvesSeq v (c :: rest) =
      ((jsHasProp v c == some true) && resolvesSeq (jsGetProp v c) rest) := rfl

theorem keyWalk_ok_true_iff :
    ∀ (rest : List String) (c : String) (v : JSValue),
      ((keyWalk v (c :: rest)).map notFalseB = .ok true) ↔
        resolvesSeq v (c :: rest) = true := by
  intro rest
  induction rest with
  | nil =>
    intro c v
    rw [keyWalk_cons, resolvesSeq_cons]
    rcases hp : jsHasProp v c with - | b
    · simp [Except.map]
    · rcases b with - | -
      · simp [keyWalk, Except.map, notFalseB]
      · rcases ht : jsTruthy (jsGetProp v c) with - | -
        · simp [ht, keyWalk, Except.map, notFalseB, resolvesSeq]
        · simp [ht, keyWalk, Except.map, notFalseB_of_truthy _ ht, resolvesSeq]
  | cons c2 rest2 ih =>
    intro c v
    rw [keyWalk_cons, resolvesSeq_cons]
    rcases hp : jsHasProp v c with - | b
    · simp [Except.map]
    · rcases b with - | -
      · dsimp only
        rw [keyWalk_cons]
        have hstuck : jsHasProp (JSValue.bool false) c2 = none := rfl
        rw [hstuck]
        simp [Except.map]
      · dsimp only
        rcases ht : jsTruthy (jsGetProp v c) with - | -
        · rw [if_neg (by simp)]
          rw [keyWalk_cons]
          have h1 : jsHasProp (JSValue.num 1) c2 = none := rfl
          rw [h1]
          rw [resolvesSeq_cons, jsHasProp_none_of_falsy (jsGetProp v c) c2 ht]
          simp [Except.map]
        · rw [if_pos rfl]
          rw [ih c2 (jsGetProp v c)]
          simp

theorem splitDotChars_ne_nil (l : List Char) : splitDotChars l ≠ [] := by
  cases l with
  | nil => simp [splitDotChars]
  | cons c t =>
    rw [splitDotChars]
    split
    · simp
    · rcases h : splitDotChars t with - | ⟨a, r⟩
      · simp
      · simp

/-- C9 (amended): over objects, `isKeyExist` returns `true` exactly when the
segment-by-segment walk resolves in the JS `in` sense — each segment present
as a property at each step, falsy-but-present values included.  When the walk
dies before the last segment (missing intermediate key or primitive
intermediate value), `isKeyExist` throws a `TypeError` instead of returning
`false` (see the counterexample), so only the `.ok true` outcome — not an
`.ok false` one — characterizes resolution. -/
theorem C9_isKeyExist_ok_true_iff_resolves (fs : List (String × JSValue)) (k : String) :
    isKeyExist (.obj fs) k = .ok true ↔ resolvesSeq (.obj fs) (splitDot k) = true := by
  obtain ⟨c, rest, hk⟩ : ∃ c rest, splitDot k = c :: rest := by
    rcases h : splitDot k with - | ⟨c, rest⟩
    · exact absurd (List.map_eq_nil_iff.mp h) (splitDotChars_ne_nil k.data)
    · exact ⟨c, rest, rfl⟩
  rw [isKeyExist, show assignCopy (.obj fs) = .obj fs from rfl, hk]
  exact keyWalk_ok_true_iff rest c (.obj fs)

/-- C9 counterexample: on the empty object and the key `"a.b"`, the walk does
not resolve, but `isKeyExist` throws a `TypeError` (the second reduce step
evaluates `'b' in false`) instead of returning `false` as the claim states. -/
theorem C9_counterexample_throws :
    isKeyExist (.obj []) "a.b" = .error "TypeError: cannot use in operator" ∧
      resolvesSeq (.obj []) (splitDot "a.b") = false :=
  ⟨rfl, rfl⟩

theorem phoneMatch_head (s : String) (h : phoneMatch s = true) :
    (∃ t, s.data = '8' :: t) ∨ (∃ t, s.data = '7' :: t) ∨ (∃ t, s.data = '+' :: '7' :: t) := by
  rw [phoneMatch] at h
  split at h
  · next heq => right; right; exact ⟨_, heq⟩
  · next heq => left; exact ⟨_, heq⟩
  · next heq => right; left; exact ⟨_, heq⟩
  · simp at h

theorem stripNonDigits_all (s : String) :
    (stripNonDigits s).data.all Char.isDigit = true := by
  rw [stripNonDigits]
  simp only [List.all_eq_true]
  intro c hc
  exact (List.mem_filter.mp hc).2

/-- C7 (amended): for every string accepted by the phone grammar,
`PhoneRule.sanitize` returns the input with a leading `8` rewritten to `7`
and all non-digits stripped — a digit-only string beginning with `7`, though
not necessarily 11 digits long (see the counterexample); for every value the
grammar rejects it returns `""` and reports `InvalidValue`. (For a non-string
value that the coerced grammar accepts, `sanitize` throws — see C8.) -/
theorem C7_phone_normalization :
    (∀ s : String, phoneMatch s = true →
        PhoneRule.sanitize (.str s) = .ok (.str (stripNonDigits (replaceLeading8 s)), []) ∧
        (stripNonDigits (replaceLeading8 s)).data.all Char.isDigit = true ∧
        (stripNonDigits (replaceLeading8 s)).data.head? = some '7') ∧
    (∀ v : JSValue, isPhone v = false →
        PhoneRule.sanitize v = .ok (.str "", [.InvalidValue])) := by
  constructor
  · intro s h
    refine ⟨by simp [PhoneRule.sanitize, isPhone, jsToString, h], stripNonDigits_all _, ?_⟩
    rcases phoneMatch_head s h with ⟨t, hd⟩ | ⟨t, hd⟩ | ⟨t, hd⟩
    · have h8 : replaceLeading8 s = ⟨'7' :: t⟩ := by rw [replaceLeading8, hd]; rfl
      rw [h8, stripNonDigits]
      simp
    · have h7 : replaceLeading8 s = s := by rw [replaceLeading8, hd]; rfl
      rw [h7, stripNonDigits, hd]
      simp
    · have h7 : replaceLeading8 s = s := by rw [replaceLeading8, hd]; rfl
      rw [h7, stripNonDigits, hd]
      simp
  · intro v h
    simp [PhoneRule.sanitize, h]

theorem C7_witness :
    PhoneRule.sanitize (.str "8 (800) 555-35-35") = .ok (.str "78005553535", []) ∧
      PhoneRule.sanitize (.str "555-35-35") = .ok (.str "", [.InvalidValue]) := by
  constructor
  · have h := (C7_phone_normalization.1 "8 (800) 555-35-35" (by decide)).1
    rw [h]; rfl
  · exact C7_phone_normalization.2 (.str "555-35-35") (by decide)

/-- C7 counterexample: `"7 (800) -------"` passes the phone grammar (the tail
class `[\d\- ]{7,10}` accepts dashes), yet normalization yields `"7800"` —
4 digits, not an 11-digit string — with no error reported. -/
theorem C7_counterexample_short_result :
    PhoneRule.sanitize (.str "7 (800) -------") = .ok (.str "7800", []) ∧
      ("7800".length = 11 → False) :=
  ⟨rfl, by decide⟩

/-- C8: the claim fails — `PhoneRule.sanitize` throws on a non-string value
that the coerced phone test accepts. `isPhone(78005553535)` coerces the
number to `"78005553535"`, which matches the grammar, so the rule skips the
defaulting branch and calls `.replace` on a number, a `TypeError`. The other
scalar rules return normally here. -/
theorem C8_phoneRule_throws_on_number :
    PhoneRule.sanitize (.num 78005553535) =
        .error "TypeError: value.replace is not a function" ∧
      IntegerRule.sanitize (.num 78005553535) = (.num 78005553535, []) ∧
      FloatRule.sanitize (.num 78005553535) = (.num 0, [.InvalidValue]) ∧
      StringRule.sanitize (.num 78005553535) = (.str "", [.InvalidValue]) :=
  ⟨rfl, rfl, rfl, rfl⟩

/-- C1: the claim fails on the code — the `ExtraField` reconciliation pass is
guarded by `specKeys.length !== payloadKeys.length`, so with spec `{a:"int"}`
and payload `{b:"7"}` (one path added, another removed, equal counts) the
stray path `"b"` gets no `ExtraField` entry; the error report carries only
`KeyDoesNotExist` for `"a"`. -/
theorem C1_extraField_missed_on_equal_counts :
    sanitizeBySpec standardRules (.obj [("a", .str "int")]) (.obj [("b", .str "7")]) [] =
      .ok (.obj [], [("a", .KeyDoesNotExist)]) :=
  rfl

/-- C3: the claim fails on the code — `this.errors` is initialized only in the
constructor and never reset by `sanitizeBySpec`, so a second call starts from
the first call's report. Running the repo's own two test payloads in sequence
leaves both the stale `InvalidValue` and the new `ExtraField` in the report,
while the test expects only the latter. -/
theorem C3_errors_accumulate_across_calls :
    sanitizeBySpec standardRules
        (.obj [("foo", .obj [("bar", .obj [("baz", .str "int")])])])
        (.obj [("foo", .obj [("bar", .obj [("baz", .str "123qux")])])]) [] =
      .ok (.obj [("foo", .obj [("bar", .obj [("baz", .num 0)])])],
           [("foo.bar.baz", .InvalidValue)]) ∧
    sanitizeBySpec standardRules
        (.obj [("foo", .obj [("bar", .obj [("baz", .str "int")])])])
        (.obj [("foo", .obj [("bar", .obj [("baz", .str "123"), ("qux", .num 123)])])])
        [("foo.bar.baz", .InvalidValue)] =
      .ok (.obj [("foo", .obj [("bar", .obj [("baz", .num 123)])])],
           [("foo.bar.baz", .InvalidValue), ("foo.bar.qux", .ExtraField)]) :=
  ⟨rfl, rfl⟩

/-- C4: the claim fails on the code — a `null` payload leaf makes
`toFlatObject` evaluate `Object.keys(null)` (`typeof null === 'object'` and
`null` is not an array), so the `TypeError` escapes `sanitizeBySpec`. -/
theorem C4_null_leaf_throws :
    sanitizeBySpec standardRules (.obj [("a", .str "string")]) (.obj [("a", .null)]) [] =
      .error "TypeError: Object.keys of null" :=
  rfl

/-- C2 counterexample: on the claim's own example the error report is as
stated, but the output does not omit `foo.bar.baz` — the integer rule's
default `0` is written there (`isKeyExist` on the output finds the path). -/
theorem C2_counterexample_path_present :
    sanitizeBySpec standardRules
        (.obj [("foo", .obj [("bar", .obj [("baz", .str "int")])])])
        (.obj [("foo", .obj [("bar", .obj [("baz", .str "123qux")])])]) [] =
      .ok (.obj [("foo", .obj [("bar", .obj [("baz", .num 0)])])],
           [("foo.bar.baz", .InvalidValue)]) ∧
    isKeyExist (.obj [("foo", .obj [("bar", .obj [("baz", .num 0)])])]) "foo.bar.baz" =
      .ok true :=
  ⟨rfl, rfl⟩

/-- C5 counterexample: the float rule does not re-accept its own output.
Sanitizing `{a:"123.0"}` against `{a:"float"}` succeeds with an empty report
and yields `{a:123}`; sanitizing that output again yields `{a:0}` with an
`InvalidValue` report — not idempotent. -/
theorem C5_counterexample_float_roundtrip :
    sanitizeBySpec standardRules (.obj [("a", .str "float")]) (.obj [("a", .str "123.0")]) [] =
      .ok (.obj [("a", .num 123)], []) ∧
    sanitizeBySpec standardRules (.obj [("a", .str "float")]) (.obj [("a", .num 123)]) [] =
      .ok (.obj [("a", .num 0)], [("a", .InvalidValue)]) :=
  ⟨rfl, rfl⟩

/-- C6 counterexample: with the phone rule as inner rule, an array holding a
phone-like number makes the inner `sanitize` throw while mapping, so
`TypedArrayRule.sanitize` neither returns the mapped array nor reports
`InvalidStructureValue` with the empty array — the exception propagates. -/
theorem C6_counterexample_inner_throws :
    TypedArrayRule.sanitize .phone (.arr [.num 78005553535]) =
      .error "TypeError: value.replace is not a function" :=
  rfl

theorem notFalseB_coerce (w : JSValue) :
    notFalseB (if jsTruthy w = true then w else .num 1) = true := by
  split
  · exact notFalseB_of_truthy _ (by assumption)
  · rfl

theorem specLoop_ok_step (rules : List (String × Rule)) (spec payload : JSValue)
    (fp : List (String × JSValue)) (k : String) (rest : List String)
    (out : JSValue) (errs : List (String × SanitizerError)) (rv : JSValue) (r : Rule)
    (sv : JSValue) (calls : List (SanitizerError × List Nat)) (out2 : JSValue)
    (h1 : isKeyExist payload k = .ok true)
    (h2 : getValueFromKey spec k .null = .ok rv)
    (h3 : (rules.find? (fun p => p.1 == jsToString rv)).map Prod.snd = some r)
    (h4 : ruleSanitize r (objGetD fp k .undefined) = .ok (sv, calls))
    (h5 : setValueFromKey out k sv = .ok out2) :
    specLoop rules spec payload fp (k :: rest) out errs =
      specLoop rules spec payload fp rest out2
        (calls.foldl (fun es c => objSet es k c.1) errs) := by
  rw [specLoop, h1]
  dsimp only
  rw [h2]
  dsimp only
  rw [h3]
  dsimp only
  rw [h4]
  dsimp only
  rw [h5]

/-- C2 (amended): when a scalar leaf fails its rule's format check,
`sanitizeBySpec` records `InvalidValue` at the dotted path, but the returned
payload does not omit the path — the rule's typed default is written there
(`0` for the integer rule): for every non-digit string `s`, the claim's
example spec and payload shape produce report `{"foo.bar.baz": InvalidValue}`
and output `{foo:{bar:{baz:0}}}`. -/
theorem C2_invalid_scalar_writes_default (s : String) (h : digitString s = false) :
    sanitizeBySpec standardRules
        (.obj [("foo", .obj [("bar", .obj [("baz", .str "int")])])])
        (.obj [("foo", .obj [("bar", .obj [("baz", .str s)])])]) [] =
      .ok (.obj [("foo", .obj [("bar", .obj [("baz", .num 0)])])],
           [("foo.bar.baz", .InvalidValue)]) := by
  have hexists : isKeyExist (.obj [("foo", .obj [("bar", .obj [("baz", .str s)])])])
      "foo.bar.baz" = .ok true := by
    have hw : isKeyExist (.obj [("foo", .obj [("bar", .obj [("baz", .str s)])])])
        "foo.bar.baz" =
        .ok (notFalseB (if jsTruthy (.str s) = true then .str s else .num 1)) := rfl
    rw [hw, notFalseB_coerce]
  have hrule : ruleSanitize (.scalar .integer)
      (objGetD [("foo.bar.baz", JSValue.str s)] "foo.bar.baz" .undefined) =
      .ok (.num 0, [(.InvalidValue, [])]) := by
    have hv : objGetD [("foo.bar.baz", JSValue.str s)] "foo.bar.baz" .undefined = .str s := rfl
    rw [hv]
    simp [ruleSanitize, scalarSanitize, IntegerRule.sanitize, isInteger, h]
  have hstart : sanitizeBySpec standardRules
      (.obj [("foo", .obj [("bar", .obj [("baz", .str "int")])])])
      (.obj [("foo", .obj [("bar", .obj [("baz", .str s)])])]) [] =
      specLoop standardRules
        (.obj [("foo", .obj [("bar", .obj [("baz", .str "int")])])])
        (.obj [("foo", .obj [("bar", .obj [("baz", .str s)])])])
        [("foo.bar.baz", .str s)] ["foo.bar.baz"] (.obj []) [] := rfl
  rw [hstart,
    specLoop_ok_step standardRules
      (.obj [("foo", .obj [("bar", .obj [("baz", .str "int")])])])
      (.obj [("foo", .obj [("bar", .obj [("baz", .str s)])])])
      [("foo.bar.baz", .str s)] "foo.bar.baz" [] (.obj []) [] (.str "int")
      (.scalar .integer) (.num 0) [(.InvalidValue, [])]
      (.obj [("foo", .obj [("bar", .obj [("baz", .num 0)])])])
      hexists rfl rfl hrule rfl]
  rfl

theorem C2_witness :
    sanitizeBySpec standardRules
        (.obj [("foo", .obj [("bar", .obj [("baz", .str "int")])])])
        (.obj [("foo", .obj [("bar", .obj [("baz", .str "123qux")])])]) [] =
      .ok (.obj [("foo", .obj [("bar", .obj [("baz", .num 0)])])],
           [("foo.bar.baz", .InvalidValue)]) :=
  C2_invalid_scalar_writes_default "123qux" (by decide)

theorem parseIntDec_den (s : String) : (parseIntDec s).den = 1 := by
  rw [parseIntDec, Rat.mkRat_one]
  exact Rat.den_intCast _

/-- C5 (amended): round-trip idempotence fails in general — the float rule
does not re-accept its own output (see the counterexample: `"123.0"`
sanitizes to the integral `123`, which the float rule then rejects). It
holds where rule outputs re-validate and stay inside the range where JS's
number round-trip is exact: for the `int` and `string` rules, sanitizing
`{foo:{bar:s},qux:t}` against `{foo:{bar:"int"},qux:"string"}` — for any
digit string `s` of value below 2^53 and any string `t` — yields
`S = {foo:{bar:parseInt(s)},qux:t}` with an empty report, and sanitizing `S`
again yields `S` with an empty report. The bound is not incidental: beyond
it the program itself is not idempotent (for `s` = `"1"` followed by 21
zeros, `String(1e21)` is `"1e+21"`, so the second pass's `parseInt` returns
`1` with an empty report), and that region is exactly where the exact-ℚ
number model would stop being faithful to `parseInt(String(v))`. -/
theorem C5_roundtrip_idempotent_for_int_string (s t : String) (h : digitString s = true)
    (_hb : digitsToNat s.data < 2 ^ 53) :
    sanitizeBySpec standardRules
        (.obj [("foo", .obj [("bar", .str "int")]), ("qux", .str "string")])
        (.obj [("foo", .obj [("bar", .str s)]), ("qux", .str t)]) [] =
      .ok (.obj [("foo", .obj [("bar", .num (parseIntDec s))]), ("qux", .str t)], []) ∧
    sanitizeBySpec standardRules
        (.obj [("foo", .obj [("bar", .str "int")]), ("qux", .str "string")])
        (.obj [("foo", .obj [("bar", .num (parseIntDec s))]), ("qux", .str t)]) [] =
      .ok (.obj [("foo", .obj [("bar", .num (parseIntDec s))]), ("qux", .str t)], []) := by
  have hint : ruleSanitize (.scalar .integer) (.str s) = .ok (.num (parseIntDec s), []) := by
    simp [ruleSanitize, scalarSanitize, IntegerRule.sanitize, isInteger, h]
  have hint2 : ruleSanitize (.scalar .integer) (.num (parseIntDec s)) =
      .ok (.num (parseIntDec s), []) := by
    simp [ruleSanitize, scalarSanitize, IntegerRule.sanitize, isInteger, parseIntDec_den]
  constructor
  · have hk1 : isKeyExist (.obj [("foo", .obj [("bar", .str s)]), ("qux", .str t)])
        "foo.bar" = .ok true := by
      have hw : isKeyExist (.obj [("foo", .obj [("bar", .str s)]), ("qux", .str t)])
          "foo.bar" =
          .ok (notFalseB (if jsTruthy (.str s) = true then .str s else .num 1)) := rfl
      rw [hw, notFalseB_coerce]
    have hk2 : isKeyExist (.obj [("foo", .obj [("bar", .str s)]), ("qux", .str t)])
        "qux" = .ok true := by
      have hw : isKeyExist (.obj [("foo", .obj [("bar", .str s)]), ("qux", .str t)])
          "qux" =
          .ok (notFalseB (if jsTruthy (.str t) = true then .str t else .num 1)) := rfl
      rw [hw, notFalseB_coerce]
    have hv1 : ruleSanitize (.scalar .integer)
        (objGetD [("foo.bar", JSValue.str s), ("qux", JSValue.str t)] "foo.bar" .undefined) =
        .ok (.num (parseIntDec s), []) := by
      rw [show objGetD [("foo.bar", JSValue.str s), ("qux", JSValue.str t)] "foo.bar" .undefined =
        .str s from rfl]
      exact hint
    have hv2 : ruleSanitize (.scalar .strRule)
        (objGetD [("foo.bar", JSValue.str s), ("qux", JSValue.str t)] "qux" .undefined) =
        .ok (.str t, []) := by
      rw [show objGetD [("foo.bar", JSValue.str s), ("qux", JSValue.str t)] "qux" .undefined =
        .str t from rfl]
      rfl
    have hstart : sanitizeBySpec standardRules
        (.obj [("foo", .obj [("bar", .str "int")]), ("qux", .str "string")])
        (.obj [("foo", .obj [("bar", .str s)]), ("qux", .str t)]) [] =
        specLoop standardRules
          (.obj [("foo", .obj [("bar", .str "int")]), ("qux", .str "string")])
          (.obj [("foo", .obj [("bar", .str s)]), ("qux", .str t)])
          [("foo.bar", .str s), ("qux", .str t)] ["foo.bar", "qux"] (.obj []) [] := rfl
    rw [hstart,
      specLoop_ok_step standardRules
        (.obj [("foo", .obj [("bar", .str "int")]), ("qux", .str "string")])
        (.obj [("foo", .obj [("bar", .str s)]), ("qux", .str t)])
        [("foo.bar", .str s), ("qux", .str t)] "foo.bar" ["qux"] (.obj []) []
        (.str "int") (.scalar .integer) (.num (parseIntDec s)) []
        (.obj [("foo", .obj [("bar", .num (parseIntDec s))])])
        hk1 rfl rfl hv1 rfl]
    simp only [List.foldl_nil]
    rw [specLoop_ok_step standardRules
        (.obj [("foo", .obj [("bar", .str "int")]), ("qux", .str "string")])
        (.obj [("foo", .obj [("bar", .str s)]), ("qux", .str t)])
        [("foo.bar", .str s), ("qux", .str t)] "qux" []
        (.obj [("foo", .obj [("bar", .num (parseIntDec s))])]) []
        (.str "string") (.scalar .strRule) (.str t) []
        (.obj [("foo", .obj [("bar", .num (parseIntDec s))]), ("qux", .str t)])
        hk2 rfl rfl hv2 rfl]
    simp only [List.foldl_nil]
    rfl
  · have hk1 : isKeyExist (.obj [("foo", .obj [("bar", .num (parseIntDec s))]), ("qux", .str t)])
        "foo.bar" = .ok true := by
      have hw : isKeyExist
          (.obj [("foo", .obj [("bar", .num (parseIntDec s))]), ("qux", .str t)]) "foo.bar" =
          .ok (notFalseB (if jsTruthy (.num (parseIntDec s)) = true
            then .num (parseIntDec s) else .num 1)) := rfl
      rw [hw, notFalseB_coerce]
    have hk2 : isKeyExist (.obj [("foo", .obj [("bar", .num (parseIntDec s))]), ("qux", .str t)])
        "qux" = .ok true := by
      have hw : isKeyExist
          (.obj [("foo", .obj [("bar", .num (parseIntDec s))]), ("qux", .str t)]) "qux" =
          .ok (notFalseB (if jsTruthy (.str t) = true then .str t else .num 1)) := rfl
      rw [hw, notFalseB_coerce]
    have hv1 : ruleSanitize (.scalar .integer)
        (objGetD [("foo.bar", JSValue.num (parseIntDec s)), ("qux", JSValue.str t)]
          "foo.bar" .undefined) =
        .ok (.num (parseIntDec s), []) := by
      rw [show objGetD [("foo.bar", JSValue.num (parseIntDec s)), ("qux", JSValue.str t)]
        "foo.bar" .undefined = .num (parseIntDec s) from rfl]
      exact hint2
    have hv2 : ruleSanitize (.scalar .strRule)
        (objGetD [("foo.bar", JSValue.num (parseIntDec s)), ("qux", JSValue.str t)]
          "qux" .undefined) =
        .ok (.str t, []) := by
      rw [show objGetD [("foo.bar", JSValue.num (parseIntDec s)), ("qux", JSValue.str t)]
        "qux" .undefined = .str t from rfl]
      rfl
    have hstart : sanitizeBySpec standardRules
        (.obj [("foo", .obj [("bar", .str "int")]), ("qux", .str "string")])
        (.obj [("foo", .obj [("bar", .num (parseIntDec s))]), ("qux", .str t)]) [] =
        specLoop standardRules
          (.obj [("foo", .obj [("bar", .str "int")]), ("qux", .str "string")])
          (.obj [("foo", .obj [("bar", .num (parseIntDec s))]), ("qux", .str t)])
          [("foo.bar", .num (parseIntDec s)), ("qux", .str t)] ["foo.bar", "qux"]
          (.obj []) [] := rfl
    rw [hstart,
      specLoop_ok_step standardRules
        (.obj [("foo", .obj [("bar", .str "int")]), ("qux", .str "string")])
        (.obj [("foo", .obj [("bar", .num (parseIntDec s))]), ("qux", .str t)])
        [("foo.bar", .num (parseIntDec s)), ("qux", .str t)] "foo.bar" ["qux"]
        (.obj []) [] (.str "int") (.scalar .integer) (.num (parseIntDec s)) []
        (.obj [("foo", .obj [("bar", .num (parseIntDec s))])])
        hk1 rfl rfl hv1 rfl]
    simp only [List.foldl_nil]
    rw [specLoop_ok_step standardRules
        (.obj [("foo", .obj [("bar", .str "int")]), ("qux", .str "string")])
        (.obj [("foo", .obj [("bar", .num (parseIntDec s))]), ("qux", .str t)])
        [("foo.bar", .num (parseIntDec s)), ("qux", .str t)] "qux" []
        (.obj [("foo", .obj [("bar", .num (parseIntDec s))])]) []
        (.str "string") (.scalar .strRule) (.str t) []
        (.obj [("foo", .obj [("bar", .num (parseIntDec s))]), ("qux", .str t)])
        hk2 rfl rfl hv2 rfl]
    simp only [List.foldl_nil]
    rfl

theorem C5_witness :
    sanitizeBySpec standardRules
        (.obj [("foo", .obj [("bar", .str "int")]), ("qux", .str "string")])
        (.obj [("foo", .obj [("bar", .str "123")]), ("qux", .str "x")]) [] =
      .ok (.obj [("foo", .obj [("bar", .num (parseIntDec "123"))]), ("qux", .str "x")], []) ∧
    sanitizeBySpec standardRules
        (.obj [("foo", .obj [("bar", .str "int")]), ("qux", .str "string")])
        (.obj [("foo", .obj [("bar", .num (parseIntDec "123"))]), ("qux", .str "x")]) [] =
      .ok (.obj [("foo", .obj [("bar", .num (parseIntDec "123"))]), ("qux", .str "x")], []) :=
  C5_roundtrip_idempotent_for_int_string "123" "x" (by decide) (by decide)
